import Mathlib

/-!
Shallow embedding of the task-orchestration core of the
vrc_localization_checker repository (base.py and sync_translations.py):
the shutdown flag, the semaphore gates, the Task lifecycle wrapper, gather,
the drain loop, and the language-file sync task.
-/

namespace VrcLc

/-- Terminal outcome of a managed task. -/
inductive Outcome
  | Completed
  | Cancelled
  | ShutdownAborted
  | Failed (e : String)
  deriving DecidableEq

/-- Base.sleep_or_shutdown (base.py lines 285-294). flagAtEntry is the value
of shutdown_requested.is_set() at entry; becomesSet says whether the event
gets set during the wait, before the timeout elapses. The body returns false
at once when the flag is already set, otherwise waits (swallowing
TimeoutError) and returns the negation of shutdown_requested.is_set() at that
point, which on this branch equals becomesSet. -/
def sleep_or_shutdown (flagAtEntry becomesSet : Bool) : Bool :=
  if flagAtEntry then
    false
  else
    let flagAtReturn := becomesSet
    !flagAtReturn

/-- Observable state of Base touched by Base.shutdown: the shutdown_requested
event and the warning log. -/
structure BaseState where
  flag : Bool
  warnLog : List String
  deriving DecidableEq

/-- Base.shutdown (base.py lines 243-245): first logs the warning naming the
reason, then sets the event. There is no guard testing whether the flag is
already set. -/
def shutdown (reason : String) (s : BaseState) : BaseState :=
  { flag := true, warnLog := s.warnLog ++ ["Shutdown requested: " ++ reason] }

/-- State of one Task object together with the scheduler: task is self._task
(a handle id, none before the first start), nextId supplies fresh asyncio
task ids, and scheduled records every execution of _main_outer that
asyncio.create_task has scheduled. -/
structure TaskState where
  task : Option Nat
  nextId : Nat
  scheduled : List Nat
  deriving DecidableEq

/-- Task.start (base.py lines 144-146): unconditionally calls
asyncio.create_task on a fresh _main_outer coroutine, overwrites self._task
with the new handle and returns it. -/
def Task.start (s : TaskState) : TaskState × Nat :=
  (⟨some s.nextId, s.nextId + 1, s.scheduled ++ [s.nextId]⟩, s.nextId)

/-- Task.wait (base.py lines 148-151): calls start only when self._task is
unset, then returns self._task. -/
def Task.wait (s : TaskState) : TaskState × Nat :=
  match s.task with
  | none => Task.start s
  | some h => (s, h)

/-- Fresh Task as built by Task.__init__ (base.py line 122): self._task is
None and nothing is scheduled. -/
def TaskState.init : TaskState := ⟨none, 0, []⟩

/-- Result of awaiting self.main() inside Task._main_outer: normal return,
asyncio CancelledError, the Shutdown exception, or any other exception
carrying a diagnostic string. -/
inductive BodyRes
  | ok
  | cancelledErr
  | shutdownExc
  | otherExc (e : String)
  deriving DecidableEq

/-- Level of a log line emitted by the wrapper. -/
inductive LogLevel
  | warning
  | error
  deriving DecidableEq

/-- Observable effect of Task._main_outer: the terminal outcome, the log line
emitted (if any), and the exception re-raised to the waiter (if any). -/
structure OuterRes where
  outcome : Outcome
  logged : Option (LogLevel × String)
  reraised : Option String
  deriving DecidableEq

/-- Task._main_outer (base.py lines 130-142): CancelledError is caught,
logged as a warning and swallowed; Shutdown is caught, logged as a warning
and swallowed; any other Exception is logged via error_exc (which names the
task, the exception type and its message) and re-raised. A normal return of
the body falls through with nothing logged and nothing raised. -/
def main_outer (r : BodyRes) : OuterRes :=
  match r with
  | .ok => ⟨.Completed, none, none⟩
  | .cancelledErr => ⟨.Cancelled, some (.warning, "Cancelled before completion."), none⟩
  | .shutdownExc => ⟨.ShutdownAborted, some (.warning, "Shutdown before completion."), none⟩
  | .otherExc e => ⟨.Failed e, some (.error, "Failed: " ++ e), some e⟩

/-- Every operation in the repository that touches shutdown_requested:
setFlag is the Event.set call in Base.shutdown (base.py 245); isSet covers
the Event.is_set reads (base.py 55, 288, 294, 343 and
analyze_translations.py 402, 409, 412); waitFlag is the Event.wait call
(base.py 291). No call site in the repository invokes Event.clear. -/
inductive FlagOp
  | setFlag
  | isSet
  | waitFlag
  deriving DecidableEq

/-- Effect of one flag-touching operation on the flag value: only setFlag
writes, and it writes true; the reads and the wait leave it unchanged. -/
def flagStep (f : Bool) : FlagOp → Bool
  | .setFlag => true
  | .isSet => f
  | .waitFlag => f

/-- Flag value after a sequence of flag-touching operations. -/
def flagRun (f : Bool) (ops : List FlagOp) : Bool := ops.foldl flagStep f

/-- Helper.check_shutdown (base.py lines 54-56): raises Shutdown (the error
branch) exactly when shutdown_requested.is_set(). -/
def check_shutdown (f : Bool) : Except Unit Unit :=
  if f then .error () else .ok ()

/-- State of one asyncio.Semaphore under the scoped async-with discipline
used everywhere in the repository: held permits equal capacity minus the
internal _value counter. -/
structure Gate where
  capacity : Nat
  held : Nat
  deriving DecidableEq

/-- Suspension-point event on a gate: an acquire attempt or a scoped
release. -/
inductive GateOp
  | acquire
  | release
  deriving DecidableEq

/-- One step of the semaphore: Semaphore.acquire decrements _value only while
_value is positive (held below capacity), otherwise the caller stays
suspended and the state is unchanged; the scoped release on async-with exit
increments _value, decrementing held. -/
def gateStep (g : Gate) : GateOp → Gate
  | .acquire => if g.held < g.capacity then { g with held := g.held + 1 } else g
  | .release => { g with held := g.held - 1 }

/-- Gate state after a sequence of acquire/release steps. -/
def gateRun (g : Gate) (ops : List GateOp) : Gate := ops.foldl gateStep g

/-- Base.__init__ (base.py line 162): io_sem = asyncio.Semaphore(8), no
permit held at creation. -/
def io_sem : Gate := ⟨8, 0⟩

/-- Base.__init__ (base.py line 166): db_sem = asyncio.Semaphore(8), no
permit held at creation. -/
def db_sem : Gate := ⟨8, 0⟩

/-- SyncLangTask.SEM (sync_translations.py line 19): asyncio.Semaphore(8),
shared by every SyncLangTask instance. -/
def syncLangSem : Gate := ⟨8, 0⟩

/-- Suspension-point operations appearing in Helper.db_conn and in the entry
of Task._main_outer. -/
inductive Op
  | check
  | acquireSem
  | enterConn
  | runBody
  deriving DecidableEq

/-- Helper.db_conn body (base.py lines 60-64): engine.connect() builds the
connection object without awaiting, then the db_sem semaphore context is
entered through the exit stack, then the connection context. The body
contains no check_shutdown call. -/
def db_conn_ops : List Op := [.acquireSem, .enterConn]

/-- Entry of Task._main_outer up to and including the body (base.py lines
130-135) for a task whose class sets SEM: the task_sem semaphore context is
entered through the exit stack, then self.main() is awaited. No
check_shutdown call surrounds the acquisition. -/
def main_outer_ops : List Op := [.acquireSem, .runBody]

/-- Result of running a straight-line op list: ran past every op (permits
obtained), aborted by Shutdown raised at a check op, or still suspended in
the semaphore wait. -/
inductive RunRes
  | finished
  | aborted
  | blockedAtSem
  deriving DecidableEq

/-- Cooperative execution of a straight-line op list while the shutdown flag
holds the value shutdownSet for the whole run and permitFree says whether the
semaphore has, or during the wait gets, a free permit. A check op raises
Shutdown when the flag is set; asyncio.Semaphore acquisition never consults
the flag: it completes exactly when a permit frees up. -/
def runOps (shutdownSet permitFree : Bool) : List Op → RunRes
  | [] => .finished
  | .check :: rest => if shutdownSet then .aborted else runOps shutdownSet permitFree rest
  | .acquireSem :: rest => if permitFree then runOps shutdownSet permitFree rest else .blockedAtSem
  | .enterConn :: rest => runOps shutdownSet permitFree rest
  | .runBody :: rest => runOps shutdownSet permitFree rest

/-- Result with which one child task settles: normal completion or a raised
exception with its message. -/
inductive ChildRes
  | ok
  | err (e : String)
  deriving DecidableEq

/-- Whether the child raised. -/
def ChildRes.isErr : ChildRes → Bool
  | .ok => false
  | .err _ => true

/-- Message of the raised exception, empty for a completed child. -/
def ChildRes.errMsg : ChildRes → String
  | .ok => ""
  | .err e => e

/-- One child asyncio task passed to Helper.gather: it reaches its terminal
state at the given time with the given result. -/
structure Child where
  time : Nat
  res : ChildRes
  deriving DecidableEq

/-- Time at which the last child of the list settles. -/
def lastTime (cs : List Child) : Nat := cs.foldl (fun a c => max a c.time) 0

/-- Failing child whose completion comes first: earliest settle time, and the
earlier list element on ties. -/
def firstFailure : List Child → Option Child
  | [] => none
  | c :: rest =>
    if c.res.isErr then
      match firstFailure rest with
      | none => some c
      | some b => if b.time < c.time then some b else some c
    else firstFailure rest

/-- What the gather await does when it finishes: return normally or raise an
exception to the awaiter. -/
inductive GatherOutcome
  | returns
  | raises (e : String)
  deriving DecidableEq

/-- Helper.gather (base.py lines 51-52): asyncio.gather over the children
with return_exceptions passed through, default false. Documented asyncio
semantics: with return_exceptions false the first raised exception is
propagated to the awaiter as soon as it occurs, without waiting for the
remaining awaitables, which keep running uncancelled; with return_exceptions
true gather settles only once every child has settled and returns. The
result is the time at which the gather await finishes, paired with what it
does then. -/
def gather (return_exceptions : Bool) (cs : List Child) : Nat × GatherOutcome :=
  if return_exceptions then (lastTime cs, .returns)
  else
    match firstFailure cs with
    | none => (lastTime cs, .returns)
    | some c => (c.time, .raises c.res.errMsg)

/-- One scheduler-visible asyncio task as seen by Base.cleanup_loop: its id,
whether it is done, and whether cancel was requested on it. -/
structure STask where
  id : Nat
  done : Bool
  cancelled : Bool
  deriving DecidableEq

/-- Enumeration at the top of each drain iteration (base.py lines 348-349):
every task of asyncio.all_tasks() other than the current one that is not
done. -/
def pendingOthers (cur : Nat) (ts : List STask) : List STask :=
  ts.filter (fun t => t.id != cur && !t.done)

/-- task.cancel() on every enumerated task (base.py lines 354-355). -/
def cancelAll (cur : Nat) (ts : List STask) : List STask :=
  ts.map (fun t => if t.id != cur && !t.done then { t with cancelled := true } else t)

/-- Environment response to asyncio.wait(tasks, timeout=5): tasks other than
the current one whose id the settle oracle approves reach their terminal
state during the grace period; the current task is executing the drain loop
and cannot settle. -/
def settleStep (settle : Nat → Bool) (cur : Nat) (ts : List STask) : List STask :=
  ts.map (fun t => if t.id != cur && settle t.id then { t with done := true } else t)

/-- Grace period in seconds passed to asyncio.wait in Base.cleanup_loop
(base.py line 356). -/
def drainGraceSeconds : Nat := 5

/-- Log line of one drain iteration (base.py line 357): how many of the
awaited tasks are done and how many are still pending after the timed
wait. -/
structure DrainLog where
  settled : Nat
  outstanding : Nat
  deriving DecidableEq

/-- Base.cleanup_loop (base.py lines 346-357), with fuel bounding how many
iterations are run (none means the loop has not returned within fuel
iterations): enumerate all tasks other than the current one that are not
done; if none remain, return; otherwise cancel every one of them, wait up to
drainGraceSeconds for them to settle (the settle oracle, indexed by the
iteration, decides which do), log the settled and outstanding counts over the
awaited list, and loop. -/
def cleanup_loop (settle : Nat → Nat → Bool) (cur : Nat) :
    Nat → List STask → List DrainLog → Option (List STask × List DrainLog)
  | 0, _, _ => none
  | fuel + 1, ts, logs =>
    let tasks := pendingOthers cur ts
    if tasks.isEmpty then some (ts, logs)
    else
      let ts2 := settleStep (settle fuel) cur (cancelAll cur ts)
      let settledCount := (tasks.filter (fun t => settle fuel t.id)).length
      cleanup_loop settle cur fuel ts2
        (logs ++ [⟨settledCount, tasks.length - settledCount⟩])

/-- Row of the translations table as built in SyncLangTask.store_lines
(sync_translations.py line 54). -/
structure Row where
  string_file : String
  string_key : String
  lang_code : String
  string_body : String
  deriving DecidableEq

/-- Exceptions escaping the sync task body: the Shutdown exception raised by
check_shutdown, or the RuntimeError raised through Helper.error_raise. -/
inductive SyncErr
  | shutdownExc
  | runtimeError (msg : String)
  deriving DecidableEq

/-- SyncLangTask.read_lines (sync_translations.py lines 30-41): check
shutdown, read every line of the language file stripping it, then raise
RuntimeError through Helper.error_raise (base.py lines 112-114, which logs at
error level and then raises) when the number of lines differs from the
number of keys of the parent folder task; otherwise keep the lines. The
shutdown flag is modelled as constant over the run, so the per-line
check_shutdown calls collapse into the initial one. -/
def read_lines (shut : Bool) (fileLines keys : List String) :
    Except SyncErr (List String) :=
  if shut then .error .shutdownExc
  else
    let lines := fileLines.map (fun l => l.trim)
    if lines.length ≠ keys.length then
      .error (.runtimeError "Number of lines does not match with number of keys!")
    else .ok lines

/-- One INSERT with ON CONFLICT DO NOTHING semantics against the translations
table: the row is appended unless an equal row is already present. -/
def insertRow (db : List Row) (r : Row) : List Row :=
  if r ∈ db then db else db ++ [r]

/-- SyncLangTask.store_lines (sync_translations.py lines 43-58): check
shutdown, then one insert per pair of zip(keys, lines) building the row from
the folder name, the key, the language code and the line body, then commit.
Returns the table contents after the commit. -/
def store_lines (shut : Bool) (l10n_name lang_code : String)
    (keys lines : List String) (db : List Row) : Except SyncErr (List Row) :=
  if shut then .error .shutdownExc
  else
    .ok ((keys.zip lines).foldl
      (fun acc kl => insertRow acc ⟨l10n_name, kl.1, lang_code, kl.2⟩) db)

/-- SyncLangTask.main (sync_translations.py lines 60-62): read_lines then
store_lines, sequentially. The result pairs the translations table contents
after the run with the exception that escaped, if any; when read_lines raises
the second await is never entered, so the table is unchanged. -/
def lang_main (shut : Bool) (l10n_name lang_code : String)
    (fileLines keys : List String) (db : List Row) : List Row × Option SyncErr :=
  match read_lines shut fileLines keys with
  | .error e => (db, some e)
  | .ok lines =>
    match store_lines shut l10n_name lang_code keys lines db with
    | .error e => (db, some e)
    | .ok db2 => (db2, none)

/-! Helper lemmas about firstFailure. -/

theorem firstFailure_eq_none (cs : List Child) (h : ∀ c ∈ cs, c.res = .ok) :
    firstFailure cs = none := by
  induction cs with
  | nil => rfl
  | cons a rest ih =>
    have ha : a.res = .ok := h a (List.mem_cons_self a rest)
    have hr := ih (fun c hc => h c (List.mem_cons_of_mem a hc))
    simp [firstFailure, ha, ChildRes.isErr, hr]

theorem firstFailure_isSome (cs : List Child) (c : Child) (hc : c ∈ cs)
    (hcerr : c.res.isErr = true) : (firstFailure cs).isSome = true := by
  induction cs with
  | nil => simp at hc
  | cons a rest ih =>
    by_cases ha : a.res.isErr = true
    · cases hfr : firstFailure rest with
      | none => simp [firstFailure, ha, hfr]
      | some b => simp [firstFailure, ha, hfr]; split <;> simp
    · have hne : c ≠ a := by
        intro hca
        rw [hca] at hcerr
        exact ha hcerr
      have hcr : c ∈ rest := by
        rcases List.mem_cons.mp hc with h1 | h1
        · exact absurd h1 hne
        · exact h1
      simpa [firstFailure, ha] using ih hcr

theorem firstFailure_min (cs : List Child) (b : Child) (h : firstFailure cs = some b) :
    ∀ c ∈ cs, c.res.isErr = true → b.time ≤ c.time := by
  induction cs generalizing b with
  | nil => simp [firstFailure] at h
  | cons a rest ih =>
    intro c hc hcerr
    by_cases ha : a.res.isErr = true
    · cases hfr : firstFailure rest with
      | none =>
        simp only [firstFailure, ha, hfr, if_pos] at h
        have hba : a = b := Option.some.inj h
        rcases List.mem_cons.mp hc with hca | hcr
        · rw [← hba, hca]
        · have := firstFailure_isSome rest c hcr hcerr
          rw [hfr] at this
          simp at this
      | some b0 =>
        simp only [firstFailure, ha, hfr, if_pos] at h
        by_cases hlt : b0.time < a.time
        · rw [if_pos hlt] at h
          have hb : b0 = b := Option.some.inj h
          rcases List.mem_cons.mp hc with hca | hcr
          · rw [← hb, hca]
            exact Nat.le_of_lt hlt
          · rw [← hb]
            exact ih b0 hfr c hcr hcerr
        · rw [if_neg hlt] at h
          have hb : a = b := Option.some.inj h
          rcases List.mem_cons.mp hc with hca | hcr
          · rw [← hb, hca]
          · have h1 : b0.time ≤ c.time := ih b0 hfr c hcr hcerr
            have h2 : a.time ≤ b0.time := Nat.le_of_not_lt hlt
            rw [← hb]
            exact Nat.le_trans h2 h1
    · simp only [firstFailure, ha, if_neg] at h
      rcases List.mem_cons.mp hc with hca | hcr
      · rw [hca] at hcerr
        exact absurd hcerr ha
      · exact ih b h c hcr hcerr

theorem firstFailure_mem (cs : List Child) (b : Child) (h : firstFailure cs = some b) :
    b ∈ cs ∧ b.res.isErr = true := by
  induction cs generalizing b with
  | nil => simp [firstFailure] at h
  | cons a rest ih =>
    by_cases ha : a.res.isErr = true
    · cases hfr : firstFailure rest with
      | none =>
        simp only [firstFailure, ha, hfr, if_pos] at h
        have hba : a = b := Option.some.inj h
        rw [← hba]
        exact ⟨List.mem_cons_self a rest, ha⟩
      | some b0 =>
        simp only [firstFailure, ha, hfr, if_pos] at h
        by_cases hlt : b0.time < a.time
        · rw [if_pos hlt] at h
          have hb : b0 = b := Option.some.inj h
          rw [← hb]
          have := ih b0 hfr
          exact ⟨List.mem_cons_of_mem a this.1, this.2⟩
        · rw [if_neg hlt] at h
          have hb : a = b := Option.some.inj h
          rw [← hb]
          exact ⟨List.mem_cons_self a rest, ha⟩
    · simp only [firstFailure, ha, if_neg] at h
      have := ih b h
      exact ⟨List.mem_cons_of_mem a this.1, this.2⟩

/-! Claim theorems. -/

/-- C1, counterexample: Helper.gather with return_exceptions at its default
false, run over a child failing at time 1 next to a sibling completing at
time 3, finishes its await at time 1 — before the sibling reaches a terminal
state — so it is false that gather waits until every task in the list is
terminal before raising. -/
theorem gather_counterexample :
    ¬ (∀ c ∈ [(⟨1, .err "boom"⟩ : Child), ⟨3, .ok⟩],
        c.time ≤ (gather false [⟨1, .err "boom"⟩, ⟨3, .ok⟩]).1) := by
  decide

/-- C1, amended: with return_exceptions at its default false, Helper.gather
still raises whenever some child failed — propagating the earliest failure —
but its await finishes no later than any failing child, rather than after
every sibling is terminal; only when no child fails (or when
return_exceptions is true) does it settle at the last completion time and
return normally. -/
theorem gather_first_failure (cs : List Child) :
    ((∀ c ∈ cs, c.res = .ok) → gather false cs = (lastTime cs, .returns)) ∧
    (∀ c ∈ cs, c.res.isErr = true →
      (gather false cs).1 ≤ c.time ∧ ∃ e, (gather false cs).2 = .raises e) ∧
    gather true cs = (lastTime cs, .returns) := by
  refine ⟨?_, ?_, rfl⟩
  · intro h
    simp [gather, firstFailure_eq_none cs h]
  · intro c hc hcerr
    have hsome := firstFailure_isSome cs c hc hcerr
    cases hfr : firstFailure cs with
    | none =>
      rw [hfr] at hsome
      simp at hsome
    | some b =>
      constructor
      · have hmin := firstFailure_min cs b hfr c hc hcerr
        simpa [gather, hfr] using hmin
      · exact ⟨b.res.errMsg, by simp [gather, hfr]⟩

/-- C1, witness for the amended theorem at concrete inputs: a gather over a
single completing child returns at its completion time, and a gather over a
single failing child finishes by the failure time and raises. -/
theorem gather_first_failure_witness :
    gather false [(⟨4, .ok⟩ : Child)] = (lastTime [(⟨4, .ok⟩ : Child)], .returns) ∧
    ((gather false [(⟨2, .err "x"⟩ : Child)]).1 ≤ 2 ∧
      ∃ e, (gather false [(⟨2, .err "x"⟩ : Child)]).2 = .raises e) :=
  ⟨(gather_first_failure [⟨4, .ok⟩]).1 (by decide),
   (gather_first_failure [⟨2, .err "x"⟩]).2.1 ⟨2, .err "x"⟩ (by decide) (by decide)⟩

/-- C2, counterexample: on a fresh Task, calling start twice schedules two
executions of the body and the second call returns a handle different from
the first, so start is not idempotent. -/
theorem start_twice_counterexample :
    (Task.start (Task.start TaskState.init).1).1.scheduled.length = 2 ∧
    (Task.start (Task.start TaskState.init).1).2 ≠ (Task.start TaskState.init).2 := by
  decide

/-- C2, amended: Task.start always schedules a fresh execution, appending one
entry to the scheduled list; the idempotent entry point is Task.wait, which
starts only when no handle exists — a wait right after a start returns the
start handle with no new scheduling, and wait after wait changes nothing. -/
theorem start_schedules_wait_idempotent (s : TaskState) :
    (Task.start s).1.scheduled = s.scheduled ++ [s.nextId] ∧
    Task.wait (Task.start s).1 = ((Task.start s).1, (Task.start s).2) ∧
    Task.wait (Task.wait s).1 = Task.wait s := by
  refine ⟨rfl, rfl, ?_⟩
  cases h : s.task with
  | none => simp [Task.wait, Task.start, h]
  | some a => simp [Task.wait, h]

/-- C3, counterexample: with the shutdown flag set for the whole wait and a
permit freeing up, both the db_conn semaphore acquisition and the _main_outer
task_sem acquisition obtain the permit and run to the end instead of
abandoning the wait with Shutdown: neither op list contains a check, so the
flag is never consulted. -/
theorem sem_wait_shutdown_counterexample :
    runOps true true db_conn_ops = .finished ∧
    runOps true true main_outer_ops = .finished ∧
    RunRes.finished ≠ RunRes.aborted := by
  decide

/-- C3, amended: shutdown requested while a task waits in the db_conn or
_main_outer semaphore acquisition does not abandon the wait: the outcome of
both runs is independent of the shutdown flag, since no check_shutdown call
occurs there, and the permit is obtained as soon as one frees up; the flag
aborts a run only at an explicit check op. -/
theorem sem_wait_ignores_shutdown (s p : Bool) :
    runOps s p db_conn_ops = runOps false p db_conn_ops ∧
    runOps s p main_outer_ops = runOps false p main_outer_ops ∧
    (p = true → runOps s p db_conn_ops = .finished) ∧
    runOps s p [Op.check] = (if s then .aborted else .finished) := by
  cases s <;> cases p <;> decide

/-- C3, witness for the amended theorem: with shutdown requested and a free
permit, the db_conn run finishes. -/
theorem sem_wait_ignores_shutdown_witness :
    runOps true true db_conn_ops = .finished :=
  (sem_wait_ignores_shutdown true true).2.2.1 rfl

/-- C4: Base.sleep_or_shutdown returns the negation of what its own docstring
(returns true if shutdown was requested, else false) and the spec state: it
returns false when the flag is already set at entry, false when the flag
becomes set during the wait, and true when the timeout elapses with the flag
still unset. -/
theorem sleep_or_shutdown_inverted :
    sleep_or_shutdown true false = false ∧
    sleep_or_shutdown true true = false ∧
    sleep_or_shutdown false true = false ∧
    sleep_or_shutdown false false = true := by
  decide

/-- C5, counterexample: a second Base.shutdown call does not leave the state
unchanged — it appends the warning line again, so after two calls the log
holds the reason twice. -/
theorem shutdown_twice_counterexample :
    shutdown "sig" (shutdown "sig" ⟨false, []⟩) ≠ shutdown "sig" ⟨false, []⟩ ∧
    (shutdown "sig" (shutdown "sig" ⟨false, []⟩)).warnLog.length = 2 := by
  refine ⟨?_, rfl⟩
  intro h
  have hlen := congrArg (fun st => st.warnLog.length) h
  simp [shutdown] at hlen

/-- C5, amended: Base.shutdown always sets the flag, and the already-set flag
is unchanged by a repeated call, but the call is not idempotent: every call,
including calls after the flag is already set, appends the shutdown warning
once more to the log. -/
theorem shutdown_sets_flag_logs_every_call (reason : String) (s : BaseState) :
    (shutdown reason s).flag = true ∧
    (shutdown reason (shutdown reason s)).flag = (shutdown reason s).flag ∧
    (shutdown reason s).warnLog = s.warnLog ++ ["Shutdown requested: " ++ reason] ∧
    (shutdown reason (shutdown reason s)).warnLog.length = s.warnLog.length + 2 := by
  refine ⟨rfl, rfl, rfl, ?_⟩
  simp [shutdown]

/-- C6: Task._main_outer classifies the body result into exactly one terminal
outcome: Completed exactly on a normal return, with nothing logged and
nothing re-raised; Cancelled exactly on CancelledError and ShutdownAborted
exactly on Shutdown, each with one warning-level line and no re-raise; Failed
exactly on any other exception, with one error-level line naming the failure
and the exception re-raised to the waiter. -/
theorem main_outer_classification (r : BodyRes) :
    ((main_outer r).outcome = .Completed ↔ r = .ok) ∧
    ((main_outer r).outcome = .Cancelled ↔ r = .cancelledErr) ∧
    ((main_outer r).outcome = .ShutdownAborted ↔ r = .shutdownExc) ∧
    (∀ e, ((main_outer r).outcome = .Failed e ↔ r = .otherExc e)) ∧
    ((main_outer r).reraised = none ↔ ∀ e, r ≠ .otherExc e) ∧
    (∀ e, r = .otherExc e → (main_outer r).logged = some (.error, "Failed: " ++ e) ∧
      (main_outer r).reraised = some e) ∧
    ((r = .cancelledErr ∨ r = .shutdownExc) →
      ∃ m, (main_outer r).logged = some (.warning, m)) ∧
    (r = .ok → (main_outer r).logged = none) := by
  cases r <;> simp [main_outer]

/-- C6, witness: a body raising an exception with message X is logged at
error level and re-raised. -/
theorem main_outer_classification_witness :
    (main_outer (.otherExc "X")).logged = some (.error, "Failed: " ++ "X") ∧
    (main_outer (.otherExc "X")).reraised = some "X" :=
  (main_outer_classification (.otherExc "X")).2.2.2.2.2.1 "X" rfl

/-- C7: whenever Base.cleanup_loop returns (within any iteration bound, for
any settle behaviour of the cancelled tasks), every scheduler-visible task
other than the current one is done — the loop returns exactly from the
branch where the enumeration of unfinished other tasks is empty — and the
per-iteration grace period is 5 seconds. -/
theorem cleanup_loop_drains (settle : Nat → Nat → Bool) (cur fuel : Nat)
    (ts : List STask) (logs : List DrainLog) (out : List STask × List DrainLog)
    (h : cleanup_loop settle cur fuel ts logs = some out) :
    pendingOthers cur out.1 = [] ∧ drainGraceSeconds = 5 := by
  refine ⟨?_, rfl⟩
  induction fuel generalizing ts logs with
  | zero => simp [cleanup_loop] at h
  | succ n ih =>
    rw [cleanup_loop] at h
    by_cases hp : (pendingOthers cur ts).isEmpty = true
    · rw [if_pos hp] at h
      have hout : (ts, logs) = out := Option.some.inj h
      have hts : pendingOthers cur ts = [] := by
        cases hpe : pendingOthers cur ts with
        | nil => rfl
        | cons a l =>
          rw [hpe] at hp
          simp [List.isEmpty] at hp
      rw [← hout]
      exact hts
    · rw [if_neg hp] at h
      exact ih _ _ h

/-- C7, witness: a drain over one other unfinished task returns after one
cancel-and-settle round with no unfinished task besides the current one
remaining. -/
theorem cleanup_loop_drains_witness :
    pendingOthers 0 [⟨0, false, false⟩, ⟨1, true, true⟩] = [] ∧ drainGraceSeconds = 5 :=
  cleanup_loop_drains (fun _ _ => true) 0 2 [⟨0, false, false⟩, ⟨1, false, false⟩] []
    ([⟨0, false, false⟩, ⟨1, true, true⟩], [⟨1, 0⟩]) rfl

/-! Helper lemmas about gates. -/

theorem gateStep_capacity (g : Gate) (op : GateOp) :
    (gateStep g op).capacity = g.capacity := by
  cases op with
  | acquire =>
    by_cases hlt : g.held < g.capacity
    · simp [gateStep, hlt]
    · simp [gateStep, hlt]
  | release => rfl

theorem gateStep_held_le (g : Gate) (op : GateOp) (h : g.held ≤ g.capacity) :
    (gateStep g op).held ≤ g.capacity := by
  cases op with
  | acquire =>
    by_cases hlt : g.held < g.capacity
    · simp only [gateStep, if_pos hlt]
      omega
    · simp only [gateStep, if_neg hlt]
      exact h
  | release =>
    simp only [gateStep]
    omega

theorem gateRun_held_le (ops : List GateOp) (g : Gate) (h : g.held ≤ g.capacity) :
    (gateRun g ops).held ≤ g.capacity := by
  induction ops generalizing g with
  | nil => exact h
  | cons op rest ih =>
    have h2 : (gateStep g op).held ≤ (gateStep g op).capacity := by
      rw [gateStep_capacity]
      exact gateStep_held_le g op h
    have h3 := ih (gateStep g op) h2
    rw [gateStep_capacity] at h3
    simpa [gateRun, List.foldl_cons] using h3

/-- C8: for each of the three capacity-8 gates of the repository — db_sem,
io_sem and SyncLangTask.SEM — after any sequence of acquire and scoped
release steps the number of held permits never exceeds 8, and an acquire
attempted on a gate whose permits are all held leaves the gate unchanged:
the caller stays suspended without obtaining a permit. -/
theorem gates_capacity_invariant (ops : List GateOp) (g : Gate)
    (hfull : g.held = g.capacity) :
    (gateRun db_sem ops).held ≤ 8 ∧
    (gateRun io_sem ops).held ≤ 8 ∧
    (gateRun syncLangSem ops).held ≤ 8 ∧
    gateStep g .acquire = g := by
  refine ⟨?_, ?_, ?_, ?_⟩
  · exact gateRun_held_le ops db_sem (by decide)
  · exact gateRun_held_le ops io_sem (by decide)
  · exact gateRun_held_le ops syncLangSem (by decide)
  · simp [gateStep, hfull]

/-- C8, witness: one acquire on db_sem keeps held at most 8, and an acquire
on a saturated capacity-8 gate changes nothing. -/
theorem gates_capacity_invariant_witness :
    (gateRun db_sem [GateOp.acquire]).held ≤ 8 ∧
    gateStep ⟨8, 8⟩ .acquire = ⟨8, 8⟩ := by
  have h := gates_capacity_invariant [GateOp.acquire] ⟨8, 8⟩ rfl
  exact ⟨h.1, h.2.2.2⟩

/-! Helper lemma about the flag. -/

theorem flagStep_true (op : FlagOp) : flagStep true op = true := by
  cases op <;> rfl

/-- C9: once the shutdown flag is set it stays set across every further
flag-touching operation of the program — no single operation turns a set
flag off, since the only writer is the Event.set call in Base.shutdown — and
check_shutdown raises Shutdown exactly on a set flag. -/
theorem shutdown_flag_monotone (ops : List FlagOp) :
    flagRun true ops = true ∧
    (∀ op, flagStep true op = true) ∧
    check_shutdown (flagRun true ops) = .error () ∧
    check_shutdown false = .ok () := by
  have hrun : flagRun true ops = true := by
    induction ops with
    | nil => rfl
    | cons op rest ih =>
      have hstep := flagStep_true op
      simp only [flagRun, List.foldl_cons, hstep]
      simpa [flagRun] using ih
  refine ⟨hrun, flagStep_true, ?_, rfl⟩
  rw [hrun]
  rfl

/-- C10: when a language file yields a line count different from the parent
folder task's key count, SyncLangTask.main stops inside read_lines with the
RuntimeError raised through error_raise: store_lines is never entered and
the translations table is returned unchanged. -/
theorem read_lines_mismatch_no_writes (l10n_name lang_code : String)
    (fileLines keys : List String) (db : List Row)
    (h : fileLines.length ≠ keys.length) :
    lang_main false l10n_name lang_code fileLines keys db =
      (db, some (.runtimeError "Number of lines does not match with number of keys!")) := by
  have hlen : (fileLines.map (fun l => l.trim)).length ≠ keys.length := by
    simpa [List.length_map] using h
  simp [lang_main, read_lines, hlen]
  rw [if_neg h]

/-- C10, witness: one line against zero keys leaves the table unchanged and
reports the RuntimeError. -/
theorem read_lines_mismatch_no_writes_witness :
    lang_main false "ui" "en" ["a"] [] [] =
      ([], some (.runtimeError "Number of lines does not match with number of keys!")) :=
  read_lines_mismatch_no_writes "ui" "en" ["a"] [] [] (by decide)

end VrcLc
